import Mathlib

/-!
Shallow embedding of the `blogicum` Django blog application
(`blog/models.py`, `blog/views.py`).

Data rows become Lean structures; foreign keys are stored as ids
(`Option Nat` for nullable ones).  Querysets become list operations:
`filter` for the WHERE clause, `List.insertionSort` (a stable sort)
for `order_by`, `map` for annotations.  Timestamps are integers.
View dispatch/response behaviour is modelled as total functions
returning a `Response` together with the new database state.
-/

namespace Blogicum

/-- Row of the Category model (`blog/models.py`): id, title, unique slug,
and the `is_published` flag inherited from `BaseModel`. -/
structure Category where
  id : Nat
  title : String
  slug : String
  is_published : Bool
  deriving DecidableEq

/-- Row of the Location model (`blog/models.py`). -/
structure Location where
  id : Nat
  name : String
  is_published : Bool
  deriving DecidableEq

/-- Row of the Django auth User model: id plus unique username. -/
structure User where
  id : Nat
  username : String
  deriving DecidableEq

/-- Row of the Post model (`blog/models.py`): author is a required FK to
User (CASCADE), location an optional FK (SET_NULL), category a nullable
FK (SET_NULL).  `pub_date` is a timestamp, modelled as an integer. -/
structure Post where
  id : Nat
  title : String
  text : String
  pub_date : Int
  is_published : Bool
  author : Nat
  location : Option Nat
  category : Option Nat
  deriving DecidableEq

/-- Row of the Comment model (`blog/models.py`): author FK to User
(CASCADE), post FK to Post (CASCADE). -/
structure Comment where
  id : Nat
  text : String
  author : Nat
  post : Nat
  deriving DecidableEq

/-- The relational store: one table per model. -/
structure DB where
  users : List User
  categories : List Category
  locations : List Location
  posts : List Post
  comments : List Comment
  deriving DecidableEq

/-- `request.user`: either Django AnonymousUser or an authenticated user,
identified by id.  AnonymousUser never compares equal to a User row. -/
inductive Requester where
  | anon
  | user (id : Nat)
  deriving DecidableEq

/-- Observable outcome of a request: a rendered page (`ok`), `Http404`
(`notFound`), an uncaught exception surfacing as HTTP 500
(`serverError`), or one of the redirects the views issue. -/
inductive Response where
  | ok
  | notFound
  | serverError
  | redirectLogin
  | redirectPostDetail (post_id : Nat)
  | redirectProfile (user_id : Nat)
  deriving DecidableEq

/-- Primary-key lookup on the posts table (`Post.objects.get(pk=...)`). -/
def findPost (db : DB) (pid : Nat) : Option Post :=
  db.posts.find? fun p => p.id == pid

/-- Primary-key lookup on the categories table. -/
def findCategory (db : DB) (cid : Nat) : Option Category :=
  db.categories.find? fun c => c.id == cid

/-- Primary-key lookup on the comments table. -/
def findComment (db : DB) (cid : Nat) : Option Comment :=
  db.comments.find? fun c => c.id == cid

/-- Lookup by unique username (`get_object_or_404(User, username=...)`). -/
def findUserByName (db : DB) (username : String) : Option User :=
  db.users.find? fun u => u.username == username

/-- The filter condition `category__is_published=True`: this traverses the
FK join, so a post whose category is null (or dangling) is excluded. -/
def categoryPublished (db : DB) (p : Post) : Bool :=
  match p.category with
  | none => false
  | some cid =>
    match findCategory db cid with
    | none => false
    | some c => c.is_published

/-- The `Count(comments)` aggregate used by the `comment_count`
annotated field: live count of comments whose post FK is this post. -/
def commentCount (db : DB) (p : Post) : Nat :=
  (db.comments.filter fun c => c.post == p.id).length

/-- The `order_by(-pub_date)` ordering relation: descending publication
date. -/
def pubDesc (a b : Post) : Prop := b.pub_date ≤ a.pub_date

instance : DecidableRel pubDesc :=
  fun a b => inferInstanceAs (Decidable (b.pub_date ≤ a.pub_date))

instance : IsTotal Post pubDesc := ⟨fun a b => le_total b.pub_date a.pub_date⟩

instance : IsTrans Post pubDesc := ⟨fun _ _ _ h1 h2 => le_trans h2 h1⟩

/-- `get_filtered_posts` (`blog/views.py`): posts filtered by
`pub_date__lte=now`, `is_published=True`, `category__is_published=True`,
annotated with `comment_count`, ordered by `-pub_date`.  The annotated
queryset is modelled as a list of (post, comment_count) pairs. -/
def get_filtered_posts (db : DB) (now : Int) : List (Post × Nat) :=
  (List.insertionSort pubDesc
    (db.posts.filter fun p =>
      decide (p.pub_date ≤ now) && p.is_published && categoryPublished db p)).map
    fun p => (p, commentCount db p)

/-- `post_queryset` (`blog/views.py`): same filter written in the order
`is_published`, `category__is_published`, `pub_date__lte`, ordered by
`-pub_date`, without the `comment_count` annotated field. -/
def post_queryset (db : DB) (now : Int) : List Post :=
  List.insertionSort pubDesc
    (db.posts.filter fun p =>
      p.is_published && categoryPublished db p && decide (p.pub_date ≤ now))

/-- The public-visibility condition of the spec: `is_published`,
`pub_date ≤ now`, and a non-null published category. -/
def visiblePost (db : DB) (now : Int) (p : Post) : Bool :=
  p.is_published && decide (p.pub_date ≤ now) && categoryPublished db p

/-- The visibility test of `PostDetailView.dispatch` run for a non-author
viewer.  The Python condition reads
`self.object.category.is_published is False or self.object.is_published
is False or self.object.pub_date > timezone.now()`; when the category FK
is null, `self.object.category` is `None` and the attribute access
raises (`serverError`), it does not raise `Http404`. -/
def detailVisibilityCheck (db : DB) (now : Int) (p : Post) : Response :=
  match p.category with
  | none => .serverError
  | some cid =>
    match findCategory db cid with
    | none => .serverError
    | some c =>
      if c.is_published = false ∨ p.is_published = false ∨ now < p.pub_date then
        .notFound
      else .ok

/-- `PostDetailView.dispatch`: fetch the post by pk (404 when absent);
the author bypasses the visibility check, everyone else goes through
`detailVisibilityCheck`. -/
def getPostDetail (db : DB) (r : Requester) (now : Int) (post_id : Nat) : Response :=
  match findPost db post_id with
  | none => .notFound
  | some p =>
    match r with
    | .user u => if u = p.author then .ok else detailVisibilityCheck db now p
    | .anon => detailVisibilityCheck db now p

/-- Modelled from the spec: the fields of `PostForm` (`blog/forms.py` is
not among the sources); §4.3 lists {title, text, pub_date, location?,
category, image?}, the author is never a form field. -/
structure PostFormData where
  title : String
  text : String
  pub_date : Int
  location : Option Nat
  category : Option Nat
  deriving DecidableEq

/-- Applying a bound PostForm to an instance, followed by
`ValidationMixin.form_valid` assigning `form.instance.author =
self.request.user`. -/
def applyPostForm (f : PostFormData) (author : Nat) (p : Post) : Post :=
  { p with title := f.title, text := f.text, pub_date := f.pub_date,
           location := f.location, category := f.category, author := author }

/-- `PostCreateView` (ValidationMixin, LoginRequiredMixin,
ProfileRedirectMixin, CreateView): anonymous users are redirected to
login by LoginRequiredMixin; otherwise a new post is inserted with
`author = request.user` and `is_published` defaulting to True, and the
response redirects to the acting user profile page. -/
def postCreate (db : DB) (r : Requester) (newId : Nat) (f : PostFormData) :
    Response × DB :=
  match r with
  | .anon => (.redirectLogin, db)
  | .user u =>
    (.redirectProfile u,
     { db with posts := db.posts ++
        [{ id := newId, title := f.title, text := f.text, pub_date := f.pub_date,
           is_published := true, author := u, location := f.location,
           category := f.category }] })

/-- `ContetnAuthorMixin.dispatch` composed into `PostUpdateView`: the
mixin runs before the inherited LoginRequiredMixin check, so any
requester (anonymous included) that is not the author is redirected to
the post detail page; the author proceeds to the form, whose
`form_valid` re-assigns `author = request.user`, and is then redirected
to the post detail page (PostRedirectMixin). -/
def postUpdate (db : DB) (r : Requester) (post_id : Nat) (f : PostFormData) :
    Response × DB :=
  match findPost db post_id with
  | none => (.notFound, db)
  | some p =>
    match r with
    | .anon => (.redirectPostDetail post_id, db)
    | .user u =>
      if u = p.author then
        (.redirectPostDetail post_id,
         { db with posts := db.posts.map fun q =>
            if q.id == post_id then applyPostForm f u q else q })
      else (.redirectPostDetail post_id, db)

/-- Database-level deletion of a post: the `Comment.post` FK is
`on_delete=CASCADE`, so exactly the comments of that post are removed
with it. -/
def deletePostCascade (db : DB) (pid : Nat) : DB :=
  { db with posts := db.posts.filter fun q => q.id != pid,
            comments := db.comments.filter fun c => c.post != pid }

/-- `PostDeleteView` (ContetnAuthorMixin, ProfileRedirectMixin,
DeleteView): non-authors (anonymous included) are redirected to post
detail; the author deletes the post (cascading to its comments) and is
redirected to their profile page. -/
def postDelete (db : DB) (r : Requester) (post_id : Nat) : Response × DB :=
  match findPost db post_id with
  | none => (.notFound, db)
  | some p =>
    match r with
    | .anon => (.redirectPostDetail post_id, db)
    | .user u =>
      if u = p.author then
        (.redirectProfile u, deletePostCascade db post_id)
      else (.redirectPostDetail post_id, db)

/-- `CommentCreateView` (LoginRequiredMixin, CommentMixin, CreateView):
anonymous users are redirected to login; `form_valid` resolves the post
with `get_object_or_404(get_filtered_posts(), pk=post_id)`, so the
comment is only created when the post is currently in the public
queryset, and the response redirects to post detail. -/
def commentCreate (db : DB) (r : Requester) (now : Int) (post_id newId : Nat)
    (text : String) : Response × DB :=
  match r with
  | .anon => (.redirectLogin, db)
  | .user u =>
    match (get_filtered_posts db now).find? (fun x => x.1.id == post_id) with
    | none => (.notFound, db)
    | some _ =>
      (.redirectPostDetail post_id,
       { db with comments := db.comments ++
          [{ id := newId, text := text, author := u, post := post_id }] })

/-- `CommentUpdateView` (CommentMixin, ContetnAuthorMixin, UpdateView):
the comment is fetched by pk (404 when absent); non-authors (anonymous
included) are redirected to post detail; the author updates the text and
is redirected to post detail. -/
def commentUpdate (db : DB) (r : Requester) (post_id comment_id : Nat)
    (text : String) : Response × DB :=
  match findComment db comment_id with
  | none => (.notFound, db)
  | some c =>
    match r with
    | .anon => (.redirectPostDetail post_id, db)
    | .user u =>
      if u = c.author then
        (.redirectPostDetail post_id,
         { db with comments := db.comments.map fun d =>
            if d.id == comment_id then { d with text := text } else d })
      else (.redirectPostDetail post_id, db)

/-- `CommentDeleteView` (CommentMixin, ContetnAuthorMixin, DeleteView):
same authorization flow as `commentUpdate`; the author deletes the
comment. -/
def commentDelete (db : DB) (r : Requester) (post_id comment_id : Nat) :
    Response × DB :=
  match findComment db comment_id with
  | none => (.notFound, db)
  | some c =>
    match r with
    | .anon => (.redirectPostDetail post_id, db)
    | .user u =>
      if u = c.author then
        (.redirectPostDetail post_id,
         { db with comments := db.comments.filter fun d => d.id != comment_id })
      else (.redirectPostDetail post_id, db)

/-- `ProfileListView.get_queryset`: resolve the user by username (404
when unknown, modelled as `none`), then ALL posts whose author is that
user — no visibility filter and no login requirement — annotated with
`comment_count`, ordered by `-pub_date`. -/
def listPostsByAuthor (db : DB) (username : String) :
    Option (List (Post × Nat)) :=
  match findUserByName db username with
  | none => none
  | some a =>
    some ((List.insertionSort pubDesc
      (db.posts.filter fun p => p.author == a.id)).map
      fun p => (p, commentCount db p))

/-- `on_delete=SET_NULL` of `Post.category`: deleting a category removes
its row and nulls the `category` FK of referencing posts. -/
def deleteCategory (db : DB) (cid : Nat) : DB :=
  { db with categories := db.categories.filter fun c => c.id != cid,
            posts := db.posts.map fun p =>
              if p.category == some cid then { p with category := none } else p }

/-- `on_delete=SET_NULL` of `Post.location`: deleting a location removes
its row and nulls the `location` FK of referencing posts. -/
def deleteLocation (db : DB) (lid : Nat) : DB :=
  { db with locations := db.locations.filter fun l => l.id != lid,
            posts := db.posts.map fun p =>
              if p.location == some lid then { p with location := none } else p }

/-- Deleting a User account.  `Post.author` and `Comment.author` are both
`on_delete=CASCADE`, so the user rows posts and comments are deleted,
and the `Comment.post` CASCADE then also removes the comments sitting on
the deleted posts. -/
def deleteUser (db : DB) (uid : Nat) : DB :=
  { db with users := db.users.filter fun v => v.id != uid,
            posts := db.posts.filter fun p => p.author != uid,
            comments := db.comments.filter fun c =>
              c.author != uid &&
                !(db.posts.any fun p => p.id == c.post && p.author == uid) }

/-- `paginate_by = POSTS_COUNT = 10` (`blog/views.py`). -/
def POSTS_COUNT : Nat := 10

/-- Modelled from Django (framework code, not in the sources):
`Paginator.num_pages` is the ceiling of count / per, except that an
empty object list still has one (empty) page. -/
def numPages (total per : Nat) : Nat :=
  if total = 0 then 1 else (total + per - 1) / per

/-- Modelled from Django (framework code, not in the sources):
`ListView.paginate_queryset` asks the paginator for page `n` and turns
an `InvalidPage` exception (page number below 1 or above `num_pages`)
into `Http404`, modelled as `none`; a valid page holds the slice of
`per` items starting at position `per * (n - 1)`. -/
def paginate {α : Type} (l : List α) (per n : Nat) : Option (List α) :=
  if 1 ≤ n ∧ n ≤ numPages l.length per then
    some ((l.drop (per * (n - 1))).take per)
  else none

/-- The home listing (`PostListView`): `get_filtered_posts()` paginated
by 10. -/
def homePage (db : DB) (now : Int) (n : Nat) : Option (List (Post × Nat)) :=
  paginate (get_filtered_posts db now) POSTS_COUNT n

/-- The category listing queryset (`CategoryListView.get_queryset`):
`get_filtered_posts().filter(category__slug=slug)`. -/
def categoryPosts (db : DB) (now : Int) (slug : String) : List (Post × Nat) :=
  (get_filtered_posts db now).filter fun x =>
    match x.1.category with
    | none => false
    | some cid =>
      match findCategory db cid with
      | none => false
      | some c => c.slug == slug

/-- The lookup `get_object_or_404(Category, is_published=True,
slug=category_slug)` run by `CategoryListView.get_context_data`. -/
def findPublishedCategoryBySlug (db : DB) (slug : String) : Option Category :=
  db.categories.find? fun c => c.is_published && c.slug == slug

/-- The category listing page: `categoryPosts` paginated by 10.
`CategoryListView.get_context_data` raises Http404 both on an invalid
page number (via the paginator of the super call) and on an unknown or
unpublished slug (via `get_object_or_404`), so the request is `none`
when either gate fails. -/
def categoryPage (db : DB) (now : Int) (slug : String) (n : Nat) :
    Option (List (Post × Nat)) :=
  match findPublishedCategoryBySlug db slug with
  | none => none
  | some _ => paginate (categoryPosts db now slug) POSTS_COUNT n

/-- The profile listing page: `listPostsByAuthor` paginated by 10; 404
(`none`) when the username is unknown. -/
def profilePage (db : DB) (username : String) (n : Nat) :
    Option (List (Post × Nat)) :=
  match listPostsByAuthor db username with
  | none => none
  | some l => paginate l POSTS_COUNT n

/-- `true` when `f` takes pairwise distinct values on `l` (uniqueness of
primary keys). -/
def nodupBy (f : α → Nat) : List α → Bool
  | [] => true
  | x :: xs => !(xs.any fun y => f y == f x) && nodupBy f xs

/-- Database sanity: primary keys of posts and comments are unique, and
every non-null `Post.category` FK resolves (enforced by the store's
referential integrity). -/
def DB.WellFormed (db : DB) : Bool :=
  nodupBy Post.id db.posts && nodupBy Comment.id db.comments &&
    db.posts.all fun p =>
      match p.category with
      | none => true
      | some cid => (findCategory db cid).isSome

/-- Fixture: a published category. -/
def exCatPub : Category := { id := 1, title := "news", slug := "news", is_published := true }

/-- Fixture: an unpublished category. -/
def exCatHidden : Category := { id := 2, title := "old", slug := "old", is_published := false }

/-- Fixture: a user. -/
def exAlice : User := { id := 1, username := "a" }

/-- Fixture: another user. -/
def exBob : User := { id := 2, username := "b" }

/-- Fixture: a post that is publicly visible at time 10. -/
def exPostVisible : Post :=
  { id := 1, title := "p1", text := "t", pub_date := 5, is_published := true,
    author := 1, location := none, category := some 1 }

/-- Fixture: a post with a null category FK. -/
def exPostNullCat : Post :=
  { id := 2, title := "p2", text := "t", pub_date := 3, is_published := true,
    author := 1, location := none, category := none }

/-- Fixture: a future-dated post. -/
def exPostFuture : Post :=
  { id := 3, title := "p3", text := "t", pub_date := 100, is_published := true,
    author := 1, location := none, category := some 1 }

/-- Fixture: an unpublished post. -/
def exPostUnpub : Post :=
  { id := 4, title := "p4", text := "t", pub_date := 2, is_published := false,
    author := 1, location := none, category := some 1 }

/-- Fixture: a comment by the second user on the visible post. -/
def exComment : Comment := { id := 1, text := "c", author := 2, post := 1 }

/-- Fixture database combining the rows above. -/
def exDB : DB :=
  { users := [exAlice, exBob], categories := [exCatPub, exCatHidden],
    locations := [], posts := [exPostVisible, exPostNullCat, exPostFuture, exPostUnpub],
    comments := [exComment] }

/-- Fixture form submission. -/
def exForm : PostFormData :=
  { title := "new", text := "new", pub_date := 1, location := none, category := some 1 }

/-- A successful `find?` by key returns an element of the list whose key
matches. -/
theorem find?_key_some {α : Type} {f : α → Nat} {l : List α} {k : Nat} {a : α}
    (h : l.find? (fun x => f x == k) = some a) : a ∈ l ∧ f a = k :=
  ⟨List.mem_of_find?_eq_some h, by simpa using List.find?_some h⟩

/-- On a list with pairwise distinct keys, equal keys force equal
elements. -/
theorem nodupBy_inj {α : Type} {f : α → Nat} :
    ∀ {l : List α}, nodupBy f l = true →
      ∀ {a}, a ∈ l → ∀ {b}, b ∈ l → f a = f b → a = b := by
  intro l
  induction l with
  | nil => intro _ a ha; exact absurd ha (List.not_mem_nil a)
  | cons x xs ih =>
    intro h a ha b hb hf
    rw [nodupBy, Bool.and_eq_true, Bool.not_eq_true', List.any_eq_false] at h
    obtain ⟨hx, hxs⟩ := h
    rcases List.mem_cons.mp ha with ha1 | ha2
    all_goals rcases List.mem_cons.mp hb with hb1 | hb2
    · rw [ha1, hb1]
    · exact absurd (beq_iff_eq.mpr (show f b = f x by rw [← hf, ha1]))
        (by simpa using hx b hb2)
    · exact absurd (beq_iff_eq.mpr (show f a = f x by rw [hf, hb1]))
        (by simpa using hx a ha2)
    · exact ih hxs ha2 hb2 hf

/-- The posts underlying the annotated home queryset are exactly the
stored posts passing the visibility filter. -/
theorem mem_get_filtered_fst {db : DB} {now : Int} {p : Post} :
    p ∈ (get_filtered_posts db now).map Prod.fst ↔
      p ∈ db.posts ∧
        (decide (p.pub_date ≤ now) && p.is_published && categoryPublished db p)
          = true := by
  unfold get_filtered_posts
  rw [List.map_map]
  have h1 : Prod.fst ∘ (fun q : Post => (q, commentCount db q)) = id := rfl
  rw [h1, List.map_id, List.mem_insertionSort]
  exact List.mem_filter

/-- `categoryPublished` unfolded into the shape used by the spec: some
category row is referenced and published. -/
theorem categoryPublished_iff {db : DB} {p : Post} :
    categoryPublished db p = true ↔
      ∃ cid c, p.category = some cid ∧ findCategory db cid = some c ∧
        c.is_published = true := by
  unfold categoryPublished
  cases hc : p.category with
  | none => simp
  | some cid =>
    cases hf : findCategory db cid with
    | none => simp [hf]
    | some c => simp [hf]

/-- The two filter predicates of `get_filtered_posts` and `post_queryset`
agree (conjunction order is irrelevant). -/
theorem filter_pred_eq (db : DB) (now : Int) (p : Post) :
    (decide (p.pub_date ≤ now) && p.is_published && categoryPublished db p) =
      (p.is_published && categoryPublished db p && decide (p.pub_date ≤ now)) := by
  cases h1 : decide (p.pub_date ≤ now) <;> cases h2 : p.is_published <;>
    cases h3 : categoryPublished db p <;> rfl

/-- `visiblePost` agrees with the filter predicate of
`get_filtered_posts`. -/
theorem visiblePost_eq_filter (db : DB) (now : Int) (p : Post) :
    visiblePost db now p =
      (decide (p.pub_date ≤ now) && p.is_published && categoryPublished db p) := by
  unfold visiblePost
  cases h1 : decide (p.pub_date ≤ now) <;> cases h2 : p.is_published <;>
    cases h3 : categoryPublished db p <;> rfl

/-- Claim C1: a post appears in the public home listing iff it is stored,
published, not future-dated, and its category is non-null and published;
the returned sequence is ordered by descending pub_date. -/
theorem C1_listPublicPosts (db : DB) (now : Int) :
    (∀ p : Post,
      p ∈ (get_filtered_posts db now).map Prod.fst ↔
        p ∈ db.posts ∧ p.is_published = true ∧ p.pub_date ≤ now ∧
          ∃ cid c, p.category = some cid ∧ findCategory db cid = some c ∧
            c.is_published = true) ∧
    List.Sorted (fun x y : Post × Nat => y.1.pub_date ≤ x.1.pub_date)
      (get_filtered_posts db now) := by
  constructor
  · intro p
    rw [mem_get_filtered_fst]
    rw [show (decide (p.pub_date ≤ now) && p.is_published &&
        categoryPublished db p) = true ↔
        p.pub_date ≤ now ∧ p.is_published = true ∧
          categoryPublished db p = true by simp [Bool.and_eq_true, and_assoc]]
    rw [categoryPublished_iff]
    tauto
  · unfold get_filtered_posts
    rw [List.Sorted, List.pairwise_map]
    exact List.sorted_insertionSort pubDesc _

/-- Claim C10: the two query builders select the same posts in the same
order; `get_filtered_posts` additionally carries the comment_count
annotation, which is the live comment count. -/
theorem C10_queryset_equivalence (db : DB) (now : Int) :
    (get_filtered_posts db now).map Prod.fst = post_queryset db now ∧
    ∀ x ∈ get_filtered_posts db now, x.2 = commentCount db x.1 := by
  constructor
  · unfold get_filtered_posts post_queryset
    rw [List.map_map]
    have h1 : Prod.fst ∘ (fun q : Post => (q, commentCount db q)) = id := rfl
    rw [h1, List.map_id]
    congr 1
    exact List.filter_congr fun p _ => filter_pred_eq db now p
  · intro x hx
    unfold get_filtered_posts at hx
    obtain ⟨p, _, rfl⟩ := List.mem_map.mp hx
    rfl

/-- For a post whose category FK resolves to a row `c`, the detail-view
visibility check returns Http404 exactly when the post is not publicly
visible, and the page exactly when it is. -/
theorem detailVisibilityCheck_spec {db : DB} {now : Int} {p : Post} {cid : Nat}
    {c : Category} (hcat : p.category = some cid)
    (hc : findCategory db cid = some c) :
    (detailVisibilityCheck db now p = .notFound ↔ visiblePost db now p = false) ∧
    (detailVisibilityCheck db now p = .ok ↔ visiblePost db now p = true) := by
  have hvis : visiblePost db now p =
      (p.is_published && decide (p.pub_date ≤ now) && c.is_published) := by
    simp only [visiblePost, categoryPublished, hcat, hc]
  have hdvc : detailVisibilityCheck db now p =
      if c.is_published = false ∨ p.is_published = false ∨ now < p.pub_date then
        Response.notFound
      else Response.ok := by
    simp only [detailVisibilityCheck, hcat, hc]
  rw [hvis, hdvc]
  rcases le_or_lt p.pub_date now with hpd | hpd
  · have hnlt : ¬ now < p.pub_date := not_lt.mpr hpd
    rcases Bool.eq_false_or_eq_true c.is_published with hcp | hcp <;>
      rcases Bool.eq_false_or_eq_true p.is_published with hpp | hpp <;>
        simp [hcp, hpp, hpd, hnlt]
  · have hnle : ¬ p.pub_date ≤ now := not_le.mpr hpd
    rcases Bool.eq_false_or_eq_true c.is_published with hcp | hcp <;>
      rcases Bool.eq_false_or_eq_true p.is_published with hpp | hpp <;>
        simp [hcp, hpp, hpd, hnle]

/-- Claim C2 counterexample: post 2 of the fixture database has a null
category — so it is not publicly visible — and user 2 is not its author;
the claim demands Http404 and no other error, but the detail dispatch
dereferences the null category and crashes (HTTP 500). -/
theorem C2_counterexample :
    findPost exDB 2 = some exPostNullCat ∧
    exPostNullCat.author ≠ 2 ∧ exPostNullCat.category = none ∧
    getPostDetail exDB (.user 2) 10 2 = .serverError ∧
    getPostDetail exDB (.user 2) 10 2 ≠ .notFound := by decide

/-- Claim C2 (amended): for an existing post, the author always gets the
page; a non-author viewer gets Http404 exactly when the post fails the
public-visibility conditions, provided its category FK is non-null —
when the category is null, the non-author request crashes with an
attribute error (HTTP 500) instead of Http404. -/
theorem C2_postDetail (db : DB) (now : Int) (pid : Nat) (p : Post)
    (hp : findPost db pid = some p) (hwf : db.WellFormed = true) :
    getPostDetail db (.user p.author) now pid = .ok ∧
    ∀ r : Requester, (∀ u, r = .user u → u ≠ p.author) →
      (p.category = none → getPostDetail db r now pid = .serverError) ∧
      ∀ cid, p.category = some cid →
        (getPostDetail db r now pid = .notFound ↔
          visiblePost db now p = false) ∧
        (getPostDetail db r now pid = .ok ↔ visiblePost db now p = true) := by
  have hp0 : db.posts.find? (fun q => q.id == pid) = some p := hp
  have hmem : p ∈ db.posts := (find?_key_some hp0).1
  constructor
  · simp [getPostDetail, hp]
  · intro r hr
    have hgd : getPostDetail db r now pid = detailVisibilityCheck db now p := by
      cases r with
      | anon => simp [getPostDetail, hp]
      | user u => simp [getPostDetail, hp, hr u rfl]
    rw [hgd]
    constructor
    · intro hcat
      simp [detailVisibilityCheck, hcat]
    · intro cid hcat
      have hfk : (findCategory db cid).isSome = true := by
        have h3 := hwf
        simp only [DB.WellFormed, Bool.and_eq_true, List.all_eq_true] at h3
        have h4 := h3.2 p hmem
        rw [hcat] at h4
        exact h4
      obtain ⟨c, hc⟩ := Option.isSome_iff_exists.mp hfk
      exact detailVisibilityCheck_spec hcat hc

/-- Witness for C2: the author sees their own unpublished post 4, and for
non-author user 2 the 404 outcome matches non-visibility. -/
theorem C2_postDetail_witness :
    getPostDetail exDB (.user 1) 10 4 = .ok ∧
    (getPostDetail exDB (.user 2) 10 4 = .notFound ↔
      visiblePost exDB 10 exPostUnpub = false) :=
  ⟨(C2_postDetail exDB 10 4 exPostUnpub (by decide) (by decide)).1,
   (((C2_postDetail exDB 10 4 exPostUnpub (by decide) (by decide)).2 (.user 2)
      (by intro u hu; cases hu; decide)).2 1 (by decide)).1⟩

/-- Claim C3 counterexample: an anonymous update attempt on existing post
1 is redirected to the post detail page, not to the login flow — the
author check of ContetnAuthorMixin overrides the inherited login
check. -/
theorem C3_counterexample :
    findPost exDB 1 = some exPostVisible ∧
    (postUpdate exDB .anon 1 exForm).1 = .redirectPostDetail 1 ∧
    (postUpdate exDB .anon 1 exForm).1 ≠ .redirectLogin := by decide

/-- Claim C3 (amended): anonymous create attempts (post and comment) are
redirected to login; anonymous update/delete attempts on an existing
post or comment are instead redirected to the post detail page; in every
case the database is unchanged. -/
theorem C3_anonymous (db : DB) (now : Int) (pid cid nid : Nat)
    (f : PostFormData) (s : String) (p : Post) (c : Comment)
    (hp : findPost db pid = some p) (hc : findComment db cid = some c) :
    postCreate db .anon nid f = (.redirectLogin, db) ∧
    commentCreate db .anon now pid nid s = (.redirectLogin, db) ∧
    postUpdate db .anon pid f = (.redirectPostDetail pid, db) ∧
    postDelete db .anon pid = (.redirectPostDetail pid, db) ∧
    commentUpdate db .anon pid cid s = (.redirectPostDetail pid, db) ∧
    commentDelete db .anon pid cid = (.redirectPostDetail pid, db) := by
  refine ⟨rfl, rfl, ?_, ?_, ?_, ?_⟩ <;>
    simp [postUpdate, postDelete, commentUpdate, commentDelete, hp, hc]

/-- Witness for C3 (amended) at the fixture database. -/
theorem C3_anonymous_witness :
    postUpdate exDB .anon 1 exForm = (.redirectPostDetail 1, exDB) ∧
    postCreate exDB .anon 9 exForm = (.redirectLogin, exDB) :=
  ⟨(C3_anonymous exDB 10 1 1 9 exForm "z" exPostVisible exComment
      (by decide) (by decide)).2.2.1,
   (C3_anonymous exDB 10 1 1 9 exForm "z" exPostVisible exComment
      (by decide) (by decide)).1⟩

/-- Claim C4: an authenticated user who is not the author, attempting
update or delete of an existing post or comment, is redirected to the
post detail page — not an error status — and the database is left
unchanged. -/
theorem C4_nonauthor_redirect (db : DB) (u pid cid : Nat)
    (f : PostFormData) (s : String) (p : Post) (c : Comment)
    (hp : findPost db pid = some p) (hup : u ≠ p.author)
    (hc : findComment db cid = some c) (huc : u ≠ c.author) :
    postUpdate db (.user u) pid f = (.redirectPostDetail pid, db) ∧
    postDelete db (.user u) pid = (.redirectPostDetail pid, db) ∧
    commentUpdate db (.user u) pid cid s = (.redirectPostDetail pid, db) ∧
    commentDelete db (.user u) pid cid = (.redirectPostDetail pid, db) := by
  refine ⟨?_, ?_, ?_, ?_⟩ <;>
    simp [postUpdate, postDelete, commentUpdate, commentDelete, hp, hc, hup, huc]

/-- Witness for C4: user 3 owns neither post 1 nor comment 1. -/
theorem C4_nonauthor_redirect_witness :
    postUpdate exDB (.user 3) 1 exForm = (.redirectPostDetail 1, exDB) ∧
    commentDelete exDB (.user 3) 1 1 = (.redirectPostDetail 1, exDB) :=
  ⟨(C4_nonauthor_redirect exDB 3 1 1 exForm "z" exPostVisible exComment
      (by decide) (by decide) (by decide) (by decide)).1,
   (C4_nonauthor_redirect exDB 3 1 1 exForm "z" exPostVisible exComment
      (by decide) (by decide) (by decide) (by decide)).2.2.2⟩

/-- Full membership characterization of the annotated home queryset. -/
theorem mem_get_filtered {db : DB} {now : Int} {x : Post × Nat} :
    x ∈ get_filtered_posts db now ↔
      x.1 ∈ db.posts ∧
        (decide (x.1.pub_date ≤ now) && x.1.is_published &&
          categoryPublished db x.1) = true ∧
        x.2 = commentCount db x.1 := by
  unfold get_filtered_posts
  rw [List.mem_map]
  constructor
  · rintro ⟨q, hq, rfl⟩
    rw [List.mem_insertionSort, List.mem_filter] at hq
    exact ⟨hq.1, hq.2, rfl⟩
  · rintro ⟨h1, h2, h3⟩
    refine ⟨x.1, ?_, ?_⟩
    · rw [List.mem_insertionSort, List.mem_filter]
      exact ⟨h1, h2⟩
    · rcases x with ⟨a, b⟩
      simp only at h3
      rw [h3]

/-- Claim C5: comment creation by an authenticated user on an existing
post succeeds — the comment is appended with author = the acting user
and the response redirects to post detail — iff the post is currently
publicly visible; it is Http404 otherwise, regardless of who asks (the
posts own author included). -/
theorem C5_commentCreate (db : DB) (now : Int) (u pid nid : Nat) (s : String)
    (p : Post) (hp : findPost db pid = some p) (hwf : db.WellFormed = true) :
    (visiblePost db now p = true →
      commentCreate db (.user u) now pid nid s =
        (.redirectPostDetail pid,
         { db with comments := db.comments ++ [⟨nid, s, u, pid⟩] })) ∧
    (visiblePost db now p = false →
      commentCreate db (.user u) now pid nid s = (.notFound, db)) := by
  have hp0 : db.posts.find? (fun q => q.id == pid) = some p := hp
  obtain ⟨hmem, hpid⟩ := find?_key_some hp0
  have hnodup : nodupBy Post.id db.posts = true := by
    simp only [DB.WellFormed, Bool.and_eq_true] at hwf
    exact hwf.1.1
  constructor
  · intro hvis
    have hpred : (decide (p.pub_date ≤ now) && p.is_published &&
        categoryPublished db p) = true := by
      rw [← visiblePost_eq_filter]
      exact hvis
    have hx : ((p, commentCount db p) : Post × Nat) ∈ get_filtered_posts db now :=
      mem_get_filtered.mpr ⟨hmem, hpred, rfl⟩
    have hne : (get_filtered_posts db now).find?
        (fun x => x.1.id == pid) ≠ none := by
      intro hnone
      exact absurd (beq_iff_eq.mpr hpid)
        (by simpa using List.find?_eq_none.mp hnone _ hx)
    obtain ⟨y, hy⟩ := Option.ne_none_iff_exists'.mp hne
    simp [commentCreate, hy]
  · intro hvis
    have hnone : (get_filtered_posts db now).find?
        (fun x => x.1.id == pid) = none := by
      rw [List.find?_eq_none]
      intro x hx hbe
      obtain ⟨hxm, hxp, _⟩ := mem_get_filtered.mp hx
      have hxe : x.1 = p := nodupBy_inj hnodup hxm hmem (by
        rw [beq_iff_eq] at hbe
        rw [hbe, hpid])
      rw [hxe] at hxp
      rw [visiblePost_eq_filter db now p, hxp] at hvis
      exact absurd hvis (by decide)
    simp [commentCreate, hnone]

/-- Witness for C5: user 2 comments on visible post 1; author 1 is 404ed
on their own future-dated post 3. -/
theorem C5_commentCreate_witness :
    commentCreate exDB (.user 2) 10 1 7 "hi" =
      (.redirectPostDetail 1,
       { exDB with comments := exDB.comments ++ [⟨7, "hi", 2, 1⟩] }) ∧
    commentCreate exDB (.user 1) 10 3 7 "hi" = (.notFound, exDB) :=
  ⟨(C5_commentCreate exDB 10 2 1 7 "hi" exPostVisible
      (by decide) (by decide)).1 (by decide),
   (C5_commentCreate exDB 10 1 3 7 "hi" exPostFuture
      (by decide) (by decide)).2 (by decide)⟩

/-- Claim C6: the profile listing 404s on an unknown username; for a
known username it returns ALL posts of that author — unpublished,
future-dated, and category-less ones included — annotated with
comment_count and ordered by descending pub_date, with no authentication
requirement. -/
theorem C6_profileListing (db : DB) (username : String) :
    (findUserByName db username = none → listPostsByAuthor db username = none) ∧
    ∀ a, findUserByName db username = some a →
      ∀ l, listPostsByAuthor db username = some l →
        (∀ p : Post, p ∈ l.map Prod.fst ↔ p ∈ db.posts ∧ p.author = a.id) ∧
        (∀ x ∈ l, x.2 = commentCount db x.1) ∧
        List.Sorted (fun x y : Post × Nat => y.1.pub_date ≤ x.1.pub_date) l := by
  constructor
  · intro h
    simp [listPostsByAuthor, h]
  · intro a ha l hl
    simp only [listPostsByAuthor, ha, Option.some.injEq] at hl
    subst hl
    refine ⟨?_, ?_, ?_⟩
    · intro p
      rw [List.map_map]
      have h1 : Prod.fst ∘ (fun q : Post => (q, commentCount db q)) = id := rfl
      rw [h1, List.map_id, List.mem_insertionSort, List.mem_filter]
      simp
    · intro x hx
      obtain ⟨q, _, rfl⟩ := List.mem_map.mp hx
      rfl
    · rw [List.Sorted, List.pairwise_map]
      exact List.sorted_insertionSort pubDesc _

/-- Witness for C6: unknown username 404s; the unpublished post 4 appears
in the profile listing of its author. -/
theorem C6_profileListing_witness :
    listPostsByAuthor exDB "nobody" = none ∧
    (exPostUnpub ∈
        (([(exPostFuture, 0), (exPostVisible, 1), (exPostNullCat, 0),
          (exPostUnpub, 0)] : List (Post × Nat)).map Prod.fst) ↔
      exPostUnpub ∈ exDB.posts ∧ exPostUnpub.author = exAlice.id) :=
  ⟨(C6_profileListing exDB "nobody").1 (by decide),
   (((C6_profileListing exDB "a").2 exAlice (by decide) _ (by decide)).1
      exPostUnpub)⟩

/-- Claim C7 counterexample: exComment is authored by user 2 and sits on
a post authored by user 1; deleting user 2 deletes the comment — the
Comment.author FK is on_delete=CASCADE, so cascade does reach Comments
from User, not only from Post. -/
theorem C7_counterexample :
    exComment ∈ exDB.comments ∧ exComment.author = 2 ∧
    (∀ q ∈ exDB.posts, q.id = exComment.post → q.author ≠ 2) ∧
    exComment ∉ (deleteUser exDB 2).comments := by decide

/-- Claim C7 (amended): deleting a post removes exactly its comments and
only that post; deleting a category or location deletes no post and no
comment and only nulls the FK of referencing posts; deleting a user also
deletes every comment they authored (Comment.author CASCADE) as well as
the comments on posts they authored. -/
theorem C7_deletionEffects (db : DB) (pid cid lid uid : Nat) :
    (∀ c : Comment, c ∈ (deletePostCascade db pid).comments ↔
      c ∈ db.comments ∧ c.post ≠ pid) ∧
    (∀ q : Post, q ∈ (deletePostCascade db pid).posts ↔
      q ∈ db.posts ∧ q.id ≠ pid) ∧
    ((deleteCategory db cid).posts.length = db.posts.length ∧
      (deleteCategory db cid).comments = db.comments ∧
      ∀ q ∈ db.posts,
        (q.category = some cid →
          { q with category := none } ∈ (deleteCategory db cid).posts) ∧
        (q.category ≠ some cid → q ∈ (deleteCategory db cid).posts)) ∧
    ((deleteLocation db lid).posts.length = db.posts.length ∧
      (deleteLocation db lid).comments = db.comments ∧
      ∀ q ∈ db.posts,
        (q.location = some lid →
          { q with location := none } ∈ (deleteLocation db lid).posts) ∧
        (q.location ≠ some lid → q ∈ (deleteLocation db lid).posts)) ∧
    (∀ c : Comment, c ∈ (deleteUser db uid).comments ↔
      c ∈ db.comments ∧ c.author ≠ uid ∧
        ∀ q ∈ db.posts, q.id = c.post → q.author ≠ uid) := by
  refine ⟨?_, ?_, ⟨?_, rfl, ?_⟩, ⟨?_, rfl, ?_⟩, ?_⟩
  · intro c
    simp [deletePostCascade, List.mem_filter]
  · intro q
    simp [deletePostCascade, List.mem_filter]
  · simp [deleteCategory]
  · intro q hq
    constructor
    · intro hcat
      exact List.mem_map.mpr ⟨q, hq, by simp [hcat]⟩
    · intro hcat
      refine List.mem_map.mpr ⟨q, hq, ?_⟩
      have : (q.category == some cid) = false := by
        simpa using hcat
      simp [this]
  · simp [deleteLocation]
  · intro q hq
    constructor
    · intro hloc
      exact List.mem_map.mpr ⟨q, hq, by simp [hloc]⟩
    · intro hloc
      refine List.mem_map.mpr ⟨q, hq, ?_⟩
      have : (q.location == some lid) = false := by
        simpa using hloc
      simp [this]
  · intro c
    simp only [deleteUser, List.mem_filter, Bool.and_eq_true,
      Bool.not_eq_true', List.any_eq_false, bne_iff_ne, ne_eq]
    constructor
    · rintro ⟨hm, hna, hnp⟩
      refine ⟨hm, hna, ?_⟩
      intro q hq hqid hau
      exact hnp q hq ⟨beq_iff_eq.mpr hqid, beq_iff_eq.mpr hau⟩
    · rintro ⟨hm, hna, hnp⟩
      refine ⟨hm, hna, ?_⟩
      intro q hq
      rintro ⟨h1, h2⟩
      exact hnp q hq (beq_iff_eq.mp h1) (beq_iff_eq.mp h2)

/-- Witness for C7 (amended): deleting the published category nulls the
reference of post 1 without deleting it. -/
theorem C7_deletionEffects_witness :
    ({ exPostVisible with category := none } ∈ (deleteCategory exDB 1).posts) ∧
    (exComment ∈ (deletePostCascade exDB 2).comments ↔
      exComment ∈ exDB.comments ∧ exComment.post ≠ 2) :=
  ⟨(((C7_deletionEffects exDB 2 1 1 2).2.2.1).2.2 exPostVisible
      (by decide)).1 (by decide),
   (C7_deletionEffects exDB 2 1 1 2).1 exComment⟩

/-- In-range pages hold exactly the slice [per(n-1), per·n) of the
ordered list; out-of-range pages are Http404 (`none`). -/
theorem paginate_spec {α : Type} (l : List α) (per n : Nat) (hn : 1 ≤ n) :
    (n ≤ numPages l.length per →
      ∃ page, paginate l per n = some page ∧
        page.length = min per (l.length - per * (n - 1)) ∧
        ∀ i, i < page.length → page[i]? = l[per * (n - 1) + i]?) ∧
    (numPages l.length per < n → paginate l per n = none) := by
  constructor
  · intro hle
    refine ⟨(l.drop (per * (n - 1))).take per, ?_, ?_, ?_⟩
    · rw [paginate, if_pos ⟨hn, hle⟩]
    · rw [List.length_take, List.length_drop]
    · intro i hi
      rw [List.length_take, List.length_drop] at hi
      have hiper : i < per := lt_of_lt_of_le hi (min_le_left _ _)
      rw [List.getElem?_take_of_lt hiper, List.getElem?_drop]
  · intro hlt
    rw [paginate, if_neg]
    rintro ⟨-, h2⟩
    exact absurd h2 (not_le.mpr hlt)

/-- Claim C8 counterexample: at time 10 the fixture home queryset holds a
single post, so page 2 is out of range; the claim demands an empty page
and no error, but the listing raises Http404 (`none`). -/
theorem C8_counterexample :
    (get_filtered_posts exDB 10).length = 1 ∧
    homePage exDB 10 2 = none ∧
    homePage exDB 10 2 ≠ some ([] : List (Post × Nat)) := by decide

/-- Claim C8 (amended): for the home, category, and profile listings with
page size 10, an in-range page n (1 ≤ n ≤ number of pages) holds exactly
the items of the ordered result at positions [10(n-1), 10n); an
out-of-range page fails with Http404 rather than returning an empty
page; the category listing additionally 404s at every page number when
the slug does not name a published category, and the profile listing
when the username is unknown. -/
theorem C8_pagination (db : DB) (now : Int) (slug username : String) (n : Nat)
    (hn : 1 ≤ n) :
    ((n ≤ numPages (get_filtered_posts db now).length POSTS_COUNT →
      ∃ page, homePage db now n = some page ∧
        page.length = min POSTS_COUNT
          ((get_filtered_posts db now).length - POSTS_COUNT * (n - 1)) ∧
        ∀ i, i < page.length →
          page[i]? = (get_filtered_posts db now)[POSTS_COUNT * (n - 1) + i]?) ∧
     (numPages (get_filtered_posts db now).length POSTS_COUNT < n →
      homePage db now n = none)) ∧
    ((findPublishedCategoryBySlug db slug = none →
      categoryPage db now slug n = none) ∧
     ∀ c, findPublishedCategoryBySlug db slug = some c →
      (n ≤ numPages (categoryPosts db now slug).length POSTS_COUNT →
        ∃ page, categoryPage db now slug n = some page ∧
          page.length = min POSTS_COUNT
            ((categoryPosts db now slug).length - POSTS_COUNT * (n - 1)) ∧
          ∀ i, i < page.length →
            page[i]? =
              (categoryPosts db now slug)[POSTS_COUNT * (n - 1) + i]?) ∧
      (numPages (categoryPosts db now slug).length POSTS_COUNT < n →
        categoryPage db now slug n = none)) ∧
    ∀ l, listPostsByAuthor db username = some l →
      (n ≤ numPages l.length POSTS_COUNT →
        ∃ page, profilePage db username n = some page ∧
          page.length = min POSTS_COUNT (l.length - POSTS_COUNT * (n - 1)) ∧
          ∀ i, i < page.length → page[i]? = l[POSTS_COUNT * (n - 1) + i]?) ∧
      (numPages l.length POSTS_COUNT < n → profilePage db username n = none) := by
  refine ⟨?_, ⟨?_, ?_⟩, ?_⟩
  · exact paginate_spec (get_filtered_posts db now) POSTS_COUNT n hn
  · intro hc
    simp [categoryPage, hc]
  · intro c hc
    have hcp : categoryPage db now slug n =
        paginate (categoryPosts db now slug) POSTS_COUNT n := by
      simp [categoryPage, hc]
    rw [hcp]
    exact paginate_spec (categoryPosts db now slug) POSTS_COUNT n hn
  · intro l hl
    have hpp : profilePage db username n = paginate l POSTS_COUNT n := by
      simp [profilePage, hl]
    rw [hpp]
    exact paginate_spec l POSTS_COUNT n hn

/-- Witness for C8 (amended): page 1 of the fixture home listing, page 1
of the published category "news", and the 404 of the unpublished slug
"old". -/
theorem C8_pagination_witness :
    (∃ page, homePage exDB 10 1 = some page ∧
      page.length = min POSTS_COUNT
        ((get_filtered_posts exDB 10).length - POSTS_COUNT * (1 - 1)) ∧
      ∀ i, i < page.length →
        page[i]? = (get_filtered_posts exDB 10)[POSTS_COUNT * (1 - 1) + i]?) ∧
    (∃ page, categoryPage exDB 10 "news" 1 = some page ∧
      page.length = min POSTS_COUNT
        ((categoryPosts exDB 10 "news").length - POSTS_COUNT * (1 - 1)) ∧
      ∀ i, i < page.length →
        page[i]? = (categoryPosts exDB 10 "news")[POSTS_COUNT * (1 - 1) + i]?) ∧
    categoryPage exDB 10 "old" 1 = none :=
  ⟨((C8_pagination exDB 10 "news" "a" 1 (by decide)).1).1 (by decide),
   (((C8_pagination exDB 10 "news" "a" 1 (by decide)).2.1).2 exCatPub
      (by decide)).1 (by decide),
   ((C8_pagination exDB 10 "old" "a" 1 (by decide)).2.1).1 (by decide)⟩

/-- Claim C9: for every requester, post and comment updates preserve the
(id, author) pairs of the whole database — in particular the author set
at creation is never changed, even though the post update path
re-assigns `author` from the current request user (the dispatch check
means that user is the original author). -/
theorem C9_authorImmutable (db : DB) (r : Requester) (pid cid : Nat)
    (f : PostFormData) (s : String) (hwf : db.WellFormed = true) :
    (postUpdate db r pid f).2.posts.map (fun q => (q.id, q.author)) =
      db.posts.map (fun q => (q.id, q.author)) ∧
    (commentUpdate db r pid cid s).2.comments.map (fun c => (c.id, c.author)) =
      db.comments.map (fun c => (c.id, c.author)) := by
  have hnodupP : nodupBy Post.id db.posts = true := by
    simp only [DB.WellFormed, Bool.and_eq_true] at hwf
    exact hwf.1.1
  have hnodupC : nodupBy Comment.id db.comments = true := by
    simp only [DB.WellFormed, Bool.and_eq_true] at hwf
    exact hwf.1.2
  constructor
  · cases hfp : findPost db pid with
    | none => simp [postUpdate, hfp]
    | some p =>
      have hp0 : db.posts.find? (fun q => q.id == pid) = some p := hfp
      obtain ⟨hmem, hpid⟩ := find?_key_some hp0
      cases r with
      | anon => simp [postUpdate, hfp]
      | user u =>
        by_cases hu : u = p.author
        · simp only [postUpdate, hfp, if_pos hu]
          rw [List.map_map]
          refine List.map_congr_left ?_
          intro q hq
          by_cases hqid : (q.id == pid) = true
          · have hqe : q = p := nodupBy_inj hnodupP hq hmem (by
              rw [beq_iff_eq] at hqid
              rw [hqid, hpid])
            simp only [Function.comp, hqid, if_pos rfl]
            subst hqe
            subst hu
            rfl
          · simp only [Function.comp]
            rw [if_neg (by simpa using hqid)]
        · simp [postUpdate, hfp, hu]
  · cases hfc : findComment db cid with
    | none => simp [commentUpdate, hfc]
    | some c =>
      have hc0 : db.comments.find? (fun d => d.id == cid) = some c := hfc
      obtain ⟨hmem, hcid⟩ := find?_key_some hc0
      cases r with
      | anon => simp [commentUpdate, hfc]
      | user u =>
        by_cases hu : u = c.author
        · simp only [commentUpdate, hfc, if_pos hu]
          rw [List.map_map]
          refine List.map_congr_left ?_
          intro d hd
          by_cases hdid : (d.id == cid) = true
          · simp [Function.comp, hdid]
          · simp only [Function.comp]
            rw [if_neg (by simpa using hdid)]
        · simp [commentUpdate, hfc, hu]

/-- Witness for C9: the author updates their own post; ids and authors
are untouched. -/
theorem C9_authorImmutable_witness :
    (postUpdate exDB (.user 1) 1 exForm).2.posts.map (fun q => (q.id, q.author)) =
      exDB.posts.map (fun q => (q.id, q.author)) :=
  (C9_authorImmutable exDB (.user 1) 1 1 exForm "z" (by decide)).1

/-- Witness for C1: the visible fixture post 1 appears in the public
listing and satisfies the visibility conditions. -/
theorem C1_listPublicPosts_witness :
    exPostVisible ∈ (get_filtered_posts exDB 10).map Prod.fst ↔
      exPostVisible ∈ exDB.posts ∧ exPostVisible.is_published = true ∧
        exPostVisible.pub_date ≤ 10 ∧
        ∃ cid c, exPostVisible.category = some cid ∧
          findCategory exDB cid = some c ∧ c.is_published = true :=
  (C1_listPublicPosts exDB 10).1 exPostVisible

/-- Witness for C10: on the fixture database the two querysets coincide. -/
theorem C10_queryset_equivalence_witness :
    (get_filtered_posts exDB 10).map Prod.fst = post_queryset exDB 10 :=
  (C10_queryset_equivalence exDB 10).1

end Blogicum
